import Mathlib

/-!
# Verification of the TinyPrograms raytracing kernel

A shallow embedding of the Whitted-style raytracer of `tinyraytracer.c`
(BrunoLevy/TinyPrograms), in its Q16.16 fixed-point variant (`USE_FIXED`),
which is the exactly representable numeric backend: every scalar is an
`int32_t` holding a Q16.16 fixed-point value, and every arithmetic
operation is an integer operation.

Modelling conventions:
* `scal` (the C `int32_t` Q16.16 scalar) is modelled as `Int`.  The C
  narrowing casts (`(scal)` applied to a 64-bit intermediate, and
  `(uint32_t)`/`(scal)` conversions in `SQRT`) are modelled explicitly
  with `wrap32` (two's-complement reduction mod 2^32).  Plain `int32_t`
  addition/subtraction/negation carries no cast in the source; signed
  overflow there is undefined behaviour in C, and is modelled as exact
  integer arithmetic.
* The C arithmetic right shift `>> 16` on a 64-bit intermediate is
  flooring division, modelled with `Int.fdiv`; the C `int64_t` division
  in `DIV` truncates toward zero, modelled with `Int.tdiv`.
* The two `while` loops of `isqrt_u64` always keep `one` equal to a
  power `4^k`; they are re-indexed by the exponent `k` so that the
  recursion is structural (kernel-reducible).  Similarly `cast_ray`,
  whose C recursion is controlled by `depth > 2`, is re-indexed by the
  remaining budget `(3 - depth).toNat`; the faithful depth-indexed
  recursion is also given (`castRayF`, fuel-guarded) and proved to agree.
-/

/-- Two's-complement reduction of an integer into `int32_t` range,
modelling the C narrowing casts to `scal`. -/
def wrap32 (x : Int) : Int :=
  (x + 2147483648) % 4294967296 - 2147483648

/-- `ONE`: the Q16.16 representation of 1 (`1 << 16`). -/
def ONE : Int := 65536

/-- `HALF`: the Q16.16 representation of 1/2 (`1 << 15`). -/
def HALF : Int := 32768

/-- `S(x)`: integer-to-scalar conversion `(scal)(x << SHIFT)`. -/
def S (x : Int) : Int := wrap32 (x * 65536)

/-- `ADD(a,b)`: `int32_t` addition (no overflow in defined behaviour). -/
def ADD (a b : Int) : Int := a + b

/-- `SUB(a,b)`: `int32_t` subtraction. -/
def SUB (a b : Int) : Int := a - b

/-- `NEG(a)`: `int32_t` negation. -/
def NEG (a : Int) : Int := -a

/-- `MUL(a,b)`: `(scal)(((int64_t)a * (int64_t)b) >> SHIFT)` — widened
product, arithmetic shift right by 16 (flooring), narrowing cast. -/
def MUL (a b : Int) : Int := wrap32 ((a * b).fdiv 65536)

/-- `DIV(a,b)`: `(scal)(((int64_t)a << SHIFT) / (int64_t)b)` — widened
numerator shifted left by 16, C `int64_t` division (truncation toward
zero), narrowing cast. -/
def DIV (a b : Int) : Int := wrap32 (Int.tdiv (a * 65536) b)

/-- `MAX(a,b)` from the fixed backend: `a > b ? a : b`. -/
def MAX (a b : Int) : Int := if a > b then a else b

/-- `MIN(a,b)` from the fixed backend: `a < b ? a : b`. -/
def MIN (a b : Int) : Int := if a < b then a else b

/-- `ABS(a)` from the fixed backend: `a < 0 ? -a : a`. -/
def ABS (a : Int) : Int := if a < 0 then -a else a

/-- `TO_INT(a)`: `(int)(a >> SHIFT)` — arithmetic shift right by 16. -/
def TO_INT (a : Int) : Int := a.fdiv 65536

/-- `(uint32_t)` conversion of a `scal`, as used by `SQRT`. -/
def toU32 (x : Int) : Nat := (x % 4294967296).toNat

/-- First `while` loop of `isqrt_u64` (`while (one > op) one >>= 2`),
re-indexed by the exponent of `one`: the argument `m` stands for
`one = 4^(m-1)` when `m > 0`, and for `one = 0` when `m = 0`; the
result is the same encoding of the final value of `one`.  The C loop
starts at `one = 1ULL << 62 = 4^31`, i.e. `m = 32`. -/
def isqrtInitK : Nat → Nat → Nat
  | 0, _ => 0
  | m + 1, op => if 4 ^ m > op then isqrtInitK m op else m + 1

/-- Second `while` loop of `isqrt_u64` (digit-by-digit binary square
root), with `one = 4^(m-1)` encoded by the first argument `m` as in
`isqrtInitK`; `op` and `res` are the C locals. -/
def isqrtLoopK : Nat → Nat → Nat → Nat
  | 0, _, res => res
  | k + 1, op, res =>
    let one := 4 ^ k
    if op ≥ res + one then isqrtLoopK k (op - (res + one)) (res / 2 + one)
    else isqrtLoopK k op (res / 2)

/-- `isqrt_u64(x)`: integer square root of a `uint64_t`, from
`tinyraytracer.c`.  No unsigned wraparound occurs in the C loops (the
subtraction is guarded and all quantities stay below 2^64), so plain
`Nat` arithmetic is exact. -/
def isqrt_u64 (x : Nat) : Nat := isqrtLoopK (isqrtInitK 32 x) x 0

/-- `SQRT(x)` from the fixed backend: `0` for non-positive input, else
the integer square root of the operand pre-shifted by 16 bits
(`((uint64_t)(uint32_t)x) << SHIFT`), cast back to `scal`. -/
def SQRT (x : Int) : Int :=
  if x ≤ 0 then 0 else wrap32 ((isqrt_u64 (toU32 x * 65536) : Nat) : Int)

/-- `POWI(a,e)`: Q16.16 exponentiation by squaring.  The C exponent is
an `int` used only with non-negative values (the Phong exponent); it is
modelled as `Nat` (for a negative `int`, the C loop `e >>= 1` would
never terminate). -/
def POWI (a : Int) (e : Nat) : Int := powiLoop ONE a e
where
  /-- The `while (e)` loop of `POWI`, with accumulator `r`. -/
  powiLoop (r a : Int) (e : Nat) : Int :=
    if h : e = 0 then r
    else powiLoop (if e % 2 = 1 then MUL r a else r) (MUL a a) (e / 2)
  termination_by e
  decreasing_by exact Nat.div_lt_self (Nat.pos_of_ne_zero h) one_lt_two

/-- Remaining scalar constants of the fixed backend. -/
def SURF_BIAS : Int := S 1

/-- `EPS_Y = SF(0.001)`: `(scal)(0.001 * 65536.0 + 0.5) = 66`. -/
def EPS_Y : Int := 66

/-- `BIG_SCAL = 0x7FFFFFFF`: safe "infinity" for Q16.16. -/
def BIG_SCAL : Int := 2147483647

/-- 3-component vector of Q16.16 scalars (`v3` in the source). -/
structure v3 where
  x : Int
  y : Int
  z : Int
deriving DecidableEq, Repr

/-- 4-component vector of Q16.16 scalars (`v4` in the source). -/
structure v4 where
  x : Int
  y : Int
  z : Int
  w : Int
deriving DecidableEq, Repr

/-- `V3(x,y,z)` constructor. -/
def V3 (x y z : Int) : v3 := ⟨x, y, z⟩

/-- `V4(x,y,z,w)` constructor. -/
def V4 (x y z w : Int) : v4 := ⟨x, y, z, w⟩

/-- `v3_add`. -/
def v3_add (a b : v3) : v3 := V3 (ADD a.x b.x) (ADD a.y b.y) (ADD a.z b.z)

/-- `v3_sub`. -/
def v3_sub (a b : v3) : v3 := V3 (SUB a.x b.x) (SUB a.y b.y) (SUB a.z b.z)

/-- `v3_neg`. -/
def v3_neg (a : v3) : v3 := V3 (NEG a.x) (NEG a.y) (NEG a.z)

/-- `v3_scale`. -/
def v3_scale (s : Int) (a : v3) : v3 := V3 (MUL s a.x) (MUL s a.y) (MUL s a.z)

/-- `v3_dot`. -/
def v3_dot (a b : v3) : Int :=
  ADD (ADD (MUL a.x b.x) (MUL a.y b.y)) (MUL a.z b.z)

/-- `v3_len`. -/
def v3_len (a : v3) : Int := SQRT (v3_dot a a)

/-- `v3_norm`: returns the input unchanged when the length is exactly
zero, otherwise scales by the reciprocal of the length. -/
def v3_norm (a : v3) : v3 :=
  let L := v3_len a
  if L = 0 then a else v3_scale (DIV ONE L) a

/-- `Light` from the source. -/
structure Light where
  position : v3
  intensity : Int
deriving DecidableEq, Repr

/-- `Material` from the source: refractive index, 4-component albedo,
diffuse color, integer specular exponent. -/
structure Material where
  refr : Int
  albedo : v4
  diffuse : v3
  spec : Int
deriving DecidableEq, Repr

/-- `Sphere` from the source. -/
structure Sphere where
  center : v3
  radius : Int
  m : Material
deriving DecidableEq, Repr

/-- `reflect(I,N) = I - 2*(I·N)*N`. -/
def reflect (I N : v3) : v3 :=
  v3_sub I (v3_scale (MUL (S 2) (v3_dot I N)) N)

/-- The clamp of `dot(I,N)` to `[-ONE, ONE]` performed at the top of
`refract_` (two sequential `if`s in the source). -/
def clampDot (d : Int) : Int :=
  let d := if d < NEG ONE then NEG ONE else d
  if d > ONE then ONE else d

/-- Body of `refract_` with a fuel bound on the self-call that flips
the normal.  The C function recurses only when `cosi < 0`, and
`refractAux_stable` below proves the flipped call never recurses again,
for every `int32` input; so fuel 2 (`refract_`) is the exact semantics
of the C recursion, and the fuel-exhausted value is unreachable. -/
def refractAux : Nat → v3 → v3 → Int → Int → v3
  | 0, _, _, _, _ => V3 0 0 0
  | fuel + 1, I, N, eta_t, eta_i =>
    let dotIN := clampDot (v3_dot I N)
    let cosi := NEG dotIN
    if cosi < 0 then refractAux fuel I (v3_neg N) eta_i eta_t
    else
      let eta := DIV eta_i eta_t
      let k := SUB ONE (MUL (MUL eta eta) (SUB ONE (MUL cosi cosi)))
      if k < 0 then V3 ONE 0 0
      else v3_add (v3_scale eta I) (v3_scale (SUB (MUL eta cosi) (SQRT k)) N)

/-- `refract_(I, N, eta_t, eta_i)` from the source. -/
def refract_ (I N : v3) (eta_t eta_i : Int) : v3 :=
  refractAux 2 I N eta_t eta_i

/-- `sphere_hit(sp, orig, dir, &t0)`: `none` models returning 0 (no
intersection), `some t` models returning 1 with `*t0 = t`. -/
def sphere_hit (sp : Sphere) (orig dir : v3) : Option Int :=
  let L := v3_sub sp.center orig
  let tca := v3_dot L dir
  let d2 := SUB (v3_dot L L) (MUL tca tca)
  let r2 := MUL sp.radius sp.radius
  if d2 > r2 then none
  else
    let thc := SQRT (SUB r2 d2)
    let t1 := ADD tca thc
    let t0 := SUB tca thc
    let t0 := if t0 < SURF_BIAS then t1 else t0
    if t0 < SURF_BIAS then none else some t0

/-- The three out-parameters `*hit`, `*N`, `*mat` of `scene_hit`,
threaded explicitly. -/
structure HitState where
  hit : v3
  N : v3
  mat : Material
deriving DecidableEq, Repr

/-- One iteration of the sphere loop of `scene_hit`: if the sphere is
hit at a distance `di` closer than the best so far, update
`spheres_dist` and the out-parameters `*hit`, `*N`, `*mat`. -/
def sphereStep (orig dir : v3) (acc : Int × HitState) (sp : Sphere) :
    Int × HitState :=
  match sphere_hit sp orig dir with
  | some di =>
      if di < acc.1 then
        let hit := v3_add orig (v3_scale di dir)
        (di, ⟨hit, v3_norm (v3_sub hit sp.center), sp.m⟩)
      else acc
  | none => acc

/-- The sphere loop of `scene_hit`: linear scan keeping the minimum
valid `sphere_hit` distance, updating the out-parameters on each
improvement.  Starts from `spheres_dist = BIG_SCAL` and the incoming
out-parameter values. -/
def sphereScan (orig dir : v3) (sps : List Sphere) (st : HitState) :
    Int × HitState :=
  sps.foldl (sphereStep orig dir) (BIG_SCAL, st)

/-- Distance to the checkerboard plane `y = -4`:
`d = DIV(NEG(ADD(orig.y, S(4))), dir.y)`. -/
def planeDist (orig dir : v3) : Int := DIV (NEG (ADD orig.y (S 4))) dir.y

/-- The candidate plane hit point `pt = orig + d*dir`. -/
def planePt (orig dir : v3) : v3 :=
  v3_add orig (v3_scale (planeDist orig dir) dir)

/-- The checkerboard color at a plane hit point:
`cx = TO_INT(ADD(MUL(SF(0.5), x), S(1000)))`, `cz = TO_INT(MUL(SF(0.5), z))`,
then `((cx + cz) & 1) ? (.3,.3,.3) : (.3,.2,.1)` (with `SF(0.5) = 32768`,
`SF(0.3) = 19661`, `SF(0.2) = 13107`, `SF(0.1) = 6554`).  The C
bit-test `& 1` on a (possibly negative) two's-complement `int` agrees
with `% 2` (euclidean remainder) on `Int`. -/
def checkerColor (pt : v3) : v3 :=
  let cx := TO_INT (ADD (MUL 32768 pt.x) (S 1000))
  let cz := TO_INT (MUL 32768 pt.z)
  if (cx + cz) % 2 = 1 then V3 19661 19661 19661 else V3 19661 13107 6554

/-- `scene_hit(orig, dir, sp, ns, &hit, &N, &mat)`: sphere scan, then
the bounded checkerboard-plane test.  Returns the C `int` result as
`Bool` together with the final out-parameter values. -/
def scene_hit (orig dir : v3) (sps : List Sphere) (st : HitState) :
    Bool × HitState :=
  let sres := sphereScan orig dir sps st
  let cres :=
    if ABS dir.y > EPS_Y then
      let d := planeDist orig dir
      let pt := planePt orig dir
      if d > SURF_BIAS ∧ ABS pt.x < S 10 ∧ pt.z < S (-10) ∧
          pt.z > S (-30) ∧ d < sres.1 then
        (d, (⟨pt, V3 0 ONE 0, { sres.2.mat with diffuse := checkerColor pt }⟩ :
              HitState))
      else (BIG_SCAL, sres.2)
    else (BIG_SCAL, sres.2)
  (decide (MIN sres.1 cres.1 < S 1000), cres.2)

/-- The default material constructed at the top of `cast_ray`:
`(Material){ONE, V4(ONE, 0, 0, 0), V3(0, 0, 0), 0}`. -/
def defaultMaterial : Material := ⟨ONE, V4 ONE 0 0 0, V3 0 0 0, 0⟩

/-- The sky gradient of `cast_ray`:
`s = MUL(SF(0.5), ADD(dir.y, ONE))`, result
`s*(0.2, 0.7, 0.8) + s*(0, 0, 0.5)` with `SF(0.2) = 13107`,
`SF(0.7) = 45875`, `SF(0.8) = 52429`, `SF(0.5) = 32768`.  Depends only
on the ray direction (in fact only on `dir.y`). -/
def skyColor (dir : v3) : v3 :=
  let s := MUL 32768 (ADD dir.y ONE)
  v3_add (v3_scale s (V3 13107 45875 52429)) (v3_scale s (V3 0 0 32768))

/-- The biased recursive-ray origin used for reflection, refraction and
shadow rays: `P ∓ SURF_BIAS*N` according to the sign of `dot(d, N)`. -/
def biasOrig (d P N : v3) : v3 :=
  if v3_dot d N < 0 then v3_sub P (v3_scale SURF_BIAS N)
  else v3_add P (v3_scale SURF_BIAS N)

/-- The lighting loop and final color blend of `cast_ray`, given the
hit data and the two already-computed recursive colors.  For each
light: shadow test via `scene_hit` from a biased origin (the C locals
`spt`, `sN` are uninitialized, modelled as zero vectors; `tmp` is
initialized to `M`), then diffuse and (guarded) specular accumulation;
finally the albedo-weighted blend. -/
def shadePoint (dir P N : v3) (M : Material) (sps : List Sphere)
    (ls : List Light) (Rcol Tcol : v3) : v3 :=
  let ds :=
    ls.foldl
      (fun (acc : Int × Int) li =>
        let Ldir := v3_norm (v3_sub li.position P)
        let Ldist := v3_len (v3_sub li.position P)
        let Sorg := biasOrig Ldir P N
        let sh := scene_hit Sorg Ldir sps ⟨V3 0 0 0, V3 0 0 0, M⟩
        if sh.1 ∧ v3_len (v3_sub sh.2.hit Sorg) < Ldist then acc
        else
          let diff := ADD acc.1 (MUL li.intensity (MAX 0 (v3_dot Ldir N)))
          let r := reflect (v3_neg Ldir) N
          let base := MAX 0 (v3_dot (v3_neg r) dir)
          let spec :=
            if base > 0 ∧ M.spec > 0 then
              ADD acc.2 (MUL li.intensity (POWI base M.spec.toNat))
            else acc.2
          (diff, spec))
      (0, 0)
  let C := v3_scale (MUL ds.1 M.albedo.x) M.diffuse
  let C := v3_add C (v3_scale (MUL ds.2 M.albedo.y) (V3 ONE ONE ONE))
  let C := v3_add C (v3_scale M.albedo.z Rcol)
  v3_add C (v3_scale M.albedo.w Tcol)

/-- `cast_ray`, re-indexed by the remaining recursion budget
`(3 - depth).toNat`: budget `0` is exactly `depth > MAXD = 2` (the C
test), and each recursive call at `depth + 1` has budget one less.
This makes the recursion structural; `castRay_fuel_agrees` (claim C3)
relates it to the faithful depth-indexed recursion `castRayF`. -/
def castRayB : Nat → v3 → v3 → List Sphere → List Light → v3
  | 0, _, dir, _, _ => skyColor dir
  | b + 1, orig, dir, sps, ls =>
    let sh := scene_hit orig dir sps ⟨V3 0 0 0, V3 0 0 0, defaultMaterial⟩
    match sh.1 with
    | false => skyColor dir
    | true =>
      let P := sh.2.hit
      let N := sh.2.N
      let M := sh.2.mat
      let Rdir := v3_norm (reflect dir N)
      let Tdir := v3_norm (refract_ dir N M.refr ONE)
      let Rorg := biasOrig Rdir P N
      let Torg := biasOrig Tdir P N
      let Rcol := castRayB b Rorg Rdir sps ls
      let Tcol := castRayB b Torg Tdir sps ls
      shadePoint dir P N M sps ls Rcol Tcol

/-- `cast_ray(orig, dir, sp, ns, li, nl, depth)` with the C `int depth`
interface. -/
def castRay (orig dir : v3) (sps : List Sphere) (ls : List Light)
    (depth : Int) : v3 :=
  castRayB ((3 - depth).toNat) orig dir sps ls

/-- The faithful depth-indexed form of the `cast_ray` recursion: the
recursion is controlled, as in C, only by the test `depth > 2`; the
`Nat` fuel is a totality device and `none` means it ran out.  Claim C3
proves fuel `(3 - depth).toNat + 1` always suffices, i.e. the C
recursion terminates after at most `MAXD = 2` extra bounces. -/
def castRayF : Nat → v3 → v3 → List Sphere → List Light → Int → Option v3
  | 0, _, _, _, _, _ => none
  | fuel + 1, orig, dir, sps, ls, depth =>
    if 2 < depth then some (skyColor dir)
    else
      let sh := scene_hit orig dir sps ⟨V3 0 0 0, V3 0 0 0, defaultMaterial⟩
      match sh.1 with
      | false => some (skyColor dir)
      | true =>
        let P := sh.2.hit
        let N := sh.2.N
        let M := sh.2.mat
        let Rdir := v3_norm (reflect dir N)
        let Tdir := v3_norm (refract_ dir N M.refr ONE)
        let Rorg := biasOrig Rdir P N
        let Torg := biasOrig Tdir P N
        (castRayF fuel Rorg Rdir sps ls (depth + 1)).bind fun Rcol =>
          (castRayF fuel Torg Tdir sps ls (depth + 1)).bind fun Tcol =>
            some (shadePoint dir P N M sps ls Rcol Tcol)

/-- `cast_ray` instrumented with a count of the `scene_hit` calls it
performs (the primary intersection test, one shadow test per light in
the lighting loop, and the calls inside both recursive rays), indexed
by the same recursion budget as `castRayB`. -/
def castRayCountB : Nat → v3 → v3 → List Sphere → List Light → v3 × Nat
  | 0, _, dir, _, _ => (skyColor dir, 0)
  | b + 1, orig, dir, sps, ls =>
    let sh := scene_hit orig dir sps ⟨V3 0 0 0, V3 0 0 0, defaultMaterial⟩
    match sh.1 with
    | false => (skyColor dir, 1)
    | true =>
      let P := sh.2.hit
      let N := sh.2.N
      let M := sh.2.mat
      let Rdir := v3_norm (reflect dir N)
      let Tdir := v3_norm (refract_ dir N M.refr ONE)
      let Rorg := biasOrig Rdir P N
      let Torg := biasOrig Tdir P N
      let R := castRayCountB b Rorg Rdir sps ls
      let T := castRayCountB b Torg Tdir sps ls
      (shadePoint dir P N M sps ls R.1 T.1, 1 + R.2 + T.2 + ls.length)

/-- Instrumented `cast_ray` with the C `int depth` interface. -/
def castRayCount (orig dir : v3) (sps : List Sphere) (ls : List Light)
    (depth : Int) : v3 × Nat :=
  castRayCountB ((3 - depth).toNat) orig dir sps ls

/-- The four spheres built by `init_scene` (fixed backend, all `SF`
literals evaluated: `SF(f) = (scal)(f*65536.0 + (f >= 0 ? 0.5 : -0.5))`
truncated toward zero). -/
def sceneSpheres : List Sphere :=
  [ ⟨V3 (-196608) 0 (-1048576), 131072,
      ⟨65536, V4 39322 19661 6554 0, V3 26214 26214 19661, 50⟩⟩,
    ⟨V3 (-65536) (-98304) (-786432), 131072,
      ⟨98304, V4 0 32768 6554 52429, V3 39322 45875 52429, 125⟩⟩,
    ⟨V3 98304 (-32768) (-1179648), 196608,
      ⟨65536, V4 58982 6554 0 0, V3 19661 6554 6554, 10⟩⟩,
    ⟨V3 458752 327680 (-1179648), 262144,
      ⟨65536, V4 0 655360 52429 0, V3 65536 65536 65536, 142⟩⟩ ]

/-- The three lights built by `init_scene`. -/
def sceneLights : List Light :=
  [ ⟨V3 (-1310720) 1310720 1310720, 98304⟩,
    ⟨V3 1966080 3276800 (-1638400), 117965⟩,
    ⟨V3 1966080 1310720 1966080, 111411⟩ ]

/-- `INV_2TAN_FOV = SF(0.86602540378443864676) = 56756`. -/
def INV_2TAN_FOV : Int := 56756

/-- `DIRZ_SCALE = NEG(MUL(S(GL_height), INV_2TAN_FOV))` with
`GL_height = 50`. -/
def DIRZ_SCALE : Int := NEG (MUL (S 50) INV_2TAN_FOV)

/-- The channel clamp of the fixed-point `render`:
`c < 0 ? 0 : (c > ONE ? ONE : c)`. -/
def clampChannel (c : Int) : Int := if c < 0 then 0 else if c > ONE then ONE else c

/-- The fixed-point (`USE_RGB8`) `render(x, y, &r, &g, &b)`: camera ray,
`cast_ray` at depth 0, clamp each channel to `[0, ONE]`, quantize with
`(uint32_t)((((int64_t)c)*255 + HALF) >> SHIFT)` and saturate at 255.
Returns the three `uint8_t` outputs. -/
def renderFixed (x y : Int) : Nat × Nat × Nat :=
  let dir_x := SUB (ADD (S x) 32768) (S 40)
  let dir_y := SUB (S 25) (ADD (S y) 32768)
  let dir_z := DIRZ_SCALE
  let C := castRay (V3 0 0 0) (v3_norm (V3 dir_x dir_y dir_z))
    sceneSpheres sceneLights 0
  let cx := clampChannel C.x
  let cy := clampChannel C.y
  let cz := clampChannel C.z
  let R := toU32 ((cx * 255 + HALF).fdiv 65536)
  let G := toU32 ((cy * 255 + HALF).fdiv 65536)
  let B := toU32 ((cz * 255 + HALF).fdiv 65536)
  (if R > 255 then 255 else R, if G > 255 then 255 else G,
    if B > 255 then 255 else B)

/-- The output stage of the float-backend `render` (both in
`tinyraytracer.c` and `render.c`): the computed `cast_ray` color is
copied to the output channels unchanged (`*r = C.x; *g = C.y; *b = C.z`)
— no clamping is applied. -/
def renderFloatPost (C : v3) : v3 := V3 C.x C.y C.z

/-- Spec-side (claim C2): the first fixed sky color, "color A"
`(0.2, 0.7, 0.8)` in Q16.16. -/
def colorSkyA : v3 := V3 13107 45875 52429

/-- Spec-side (claim C2): the second fixed sky color, "color B"
`(0, 0, 0.5)` in Q16.16. -/
def colorSkyB : v3 := V3 0 0 32768

/-- Spec-side (claim C5): the parity selector the claim asserts,
`floor(x/2) + floor(z)` in world units, on Q16.16 hit coordinates
(`floor(x/2) = x.fdiv 2^17`, `floor(z) = z.fdiv 2^16`). -/
def checkerClaimParity (pt : v3) : Int :=
  (pt.x.fdiv 131072 + pt.z.fdiv 65536) % 2

/-- Spec-side (claim C5, amended): the parity the code actually uses,
`(floor(x/2) + 1000) + floor(z/2)` in world units. -/
def checkerCellParity (pt : v3) : Int :=
  (pt.x.fdiv 131072 + 1000 + pt.z.fdiv 131072) % 2

/-- Spec-side (claim C7): round-to-nearest quantization of a clamped
Q16.16 channel to `0..255` — multiply by 255, add the half-unit bias
`HALF`, floor-shift by 16 bits. -/
def quant255 (c : Int) : Nat := ((c * 255 + 32768).fdiv 65536).toNat

/-- C1: for every sphere and ray, `sphere_hit` returns no intersection
when the perpendicular squared distance `d2 = |L|^2 - tca^2` exceeds
`radius^2`; otherwise, with `thc = SQRT(r2 - d2)`, `t0 = tca - thc`,
`t1 = tca + thc`, it replaces `t0` by `t1` whenever `t0` is below the
surface bias `SURF_BIAS`, reports no intersection if the resulting
distance is still below the bias, and otherwise returns that
distance. -/
theorem sphere_hit_characterization (sp : Sphere) (orig dir : v3) :
    sphere_hit sp orig dir =
      (let L := v3_sub sp.center orig
       let tca := v3_dot L dir
       let d2 := SUB (v3_dot L L) (MUL tca tca)
       let r2 := MUL sp.radius sp.radius
       let thc := SQRT (SUB r2 d2)
       let t1 := ADD tca thc
       let t0 := SUB tca thc
       let t := if t0 < SURF_BIAS then t1 else t0
       if d2 > r2 then none
       else if t < SURF_BIAS then none else some t) := rfl

/-- C8: `v3_norm` returns its argument unchanged when the computed
length is exactly zero (so the division `DIV ONE L` is never reached
with `L = 0`), and otherwise scales the argument by the reciprocal of
its length. -/
theorem v3_norm_zero_guard (a : v3) :
    (v3_len a = 0 → v3_norm a = a) ∧
    (v3_len a ≠ 0 → v3_norm a = v3_scale (DIV ONE (v3_len a)) a) := by
  constructor <;> intro h <;> simp [v3_norm, h]

/-- Witness for C8 at concrete inputs: the zero vector (zero length,
returned unchanged) and a unit-length vector (scaled branch). -/
theorem v3_norm_zero_guard_witness :
    v3_norm (V3 0 0 0) = V3 0 0 0 ∧
    v3_norm (V3 65536 0 0)
      = v3_scale (DIV ONE (v3_len (V3 65536 0 0))) (V3 65536 0 0) :=
  ⟨(v3_norm_zero_guard (V3 0 0 0)).1 (by decide),
   (v3_norm_zero_guard (V3 65536 0 0)).2 (by decide)⟩

/-- C2 (amended): whenever the depth exceeds `MAXD = 2` or `scene_hit`
finds nothing, `cast_ray` returns exactly the sky gradient of the ray
direction (`skyColor`, a function of `dir.y` alone — independent of
the recursion depth and of any screen coordinate, which `cast_ray`
does not even receive); at `dir.y = -1` the gradient is black
`(0,0,0)` (not sky color A), and at `dir.y = 1` it is the blend
`A + B`. -/
theorem castRay_sky (orig dir : v3) (sps : List Sphere) (ls : List Light)
    (depth : Int) :
    (2 < depth ∨
        (scene_hit orig dir sps ⟨V3 0 0 0, V3 0 0 0, defaultMaterial⟩).1
          = false →
      castRay orig dir sps ls depth = skyColor dir) ∧
    (∀ dx dz : Int, skyColor (V3 dx (NEG ONE) dz) = V3 0 0 0) ∧
    (∀ dx dz : Int, skyColor (V3 dx ONE dz) = v3_add colorSkyA colorSkyB) := by
  refine ⟨?_, fun dx dz => rfl, fun dx dz => rfl⟩
  intro h
  unfold castRay
  rcases h with h | h
  · have h0 : (3 - depth).toNat = 0 := by omega
    rw [h0]
    rfl
  · cases hb : (3 - depth).toNat with
    | zero => rfl
    | succ b => simp only [castRayB, h]

/-- Witness for C2's theorem at a concrete miss ray: straight-down
direction, empty scene, depth 0. -/
theorem castRay_sky_witness :
    castRay (V3 0 0 0) (V3 0 (NEG ONE) 0) [] [] 0
      = skyColor (V3 0 (NEG ONE) 0) :=
  (castRay_sky (V3 0 0 0) (V3 0 (NEG ONE) 0) [] [] 0).1 (Or.inr (by decide))

/-- Counterexample for C2 as stated: a ray with `dir.y = -1` that
misses everything (empty scene) does not return the "pure color A"
`(0.2, 0.7, 0.8)`; the sky gradient at `s = 0` is black. -/
theorem castRay_sky_counterexample :
    castRay (V3 0 0 0) (V3 0 (NEG ONE) 0) [] [] 0 = V3 0 0 0 ∧
    castRay (V3 0 0 0) (V3 0 (NEG ONE) 0) [] [] 0 ≠ colorSkyA := by decide

/-- The depth-indexed recursion `castRayF` (the C `cast_ray`, recursion
controlled only by `depth > 2`) never exhausts a fuel larger than the
remaining budget `(3 - depth).toNat`, and computes `castRay`.  This is
the termination argument for the C recursion. -/
lemma castRayF_eq (fuel : Nat) :
    ∀ (depth : Int) (orig dir : v3) (sps : List Sphere) (ls : List Light),
      (3 - depth).toNat < fuel →
      castRayF fuel orig dir sps ls depth
        = some (castRay orig dir sps ls depth) := by
  induction fuel with
  | zero => intro depth _ _ _ _ h; omega
  | succ n ih =>
    intro depth orig dir sps ls h
    unfold castRay
    by_cases hd : 2 < depth
    · have h0 : (3 - depth).toNat = 0 := by omega
      rw [h0]
      simp only [castRayF, if_pos hd]
      rfl
    · have h1 : (3 - depth).toNat = (3 - (depth + 1)).toNat + 1 := by omega
      have h2 : (3 - (depth + 1)).toNat < n := by omega
      rw [h1]
      simp only [castRayF, if_neg hd, castRayB]
      cases hsh :
          (scene_hit orig dir sps ⟨V3 0 0 0, V3 0 0 0, defaultMaterial⟩).1 with
      | false => rfl
      | true =>
        simp only [ih (depth + 1) _ _ _ _ h2, Option.bind_some]
        rfl

/-- C3: `cast_ray` terminates for every origin, direction, scene and
starting depth: the faithful depth-guarded recursion (`castRayF`)
finishes within any fuel exceeding the remaining budget
`(3 - depth).toNat` — i.e. at most `MAXD = 2` extra bounces beyond the
primary ray — and a call at `depth = MAXD + 1 = 3` returns the sky
color immediately with a `scene_hit` call count of zero
(`castRayCount` instruments the count). -/
theorem castRay_terminates :
    (∀ (orig dir : v3) (sps : List Sphere) (ls : List Light) (depth : Int)
        (fuel : Nat), (3 - depth).toNat < fuel →
      castRayF fuel orig dir sps ls depth
        = some (castRay orig dir sps ls depth)) ∧
    (∀ (orig dir : v3) (sps : List Sphere) (ls : List Light),
      castRay orig dir sps ls 3 = skyColor dir ∧
      castRayCount orig dir sps ls 3 = (skyColor dir, 0)) :=
  ⟨fun orig dir sps ls depth fuel h => castRayF_eq fuel depth orig dir sps ls h,
   fun _ _ _ _ => ⟨rfl, rfl⟩⟩

/-- Witness for C3 at concrete inputs: fuel 4 suffices for a primary
ray at depth 0, and the concrete depth-3 call is the sky color with
zero `scene_hit` calls. -/
theorem castRay_terminates_witness :
    ((3 - (0 : Int)).toNat < 4) ∧
    castRayF 4 (V3 0 0 0) (V3 0 (NEG ONE) 0) [] [] 0
      = some (castRay (V3 0 0 0) (V3 0 (NEG ONE) 0) [] [] 0) ∧
    castRayCount (V3 0 0 0) (V3 0 (NEG ONE) 0) [] [] 3
      = (skyColor (V3 0 (NEG ONE) 0), 0) :=
  ⟨by decide,
   castRay_terminates.1 (V3 0 0 0) (V3 0 (NEG ONE) 0) [] [] 0 4 (by decide),
   (castRay_terminates.2 (V3 0 0 0) (V3 0 (NEG ONE) 0) [] []).2⟩

/-- A single sphere-loop step either keeps the material out-parameter
or writes the scanned sphere's material. -/
lemma sphereStep_mat (orig dir : v3) (acc : Int × HitState) (sp : Sphere) :
    (sphereStep orig dir acc sp).2.mat = acc.2.mat ∨
    (sphereStep orig dir acc sp).2.mat = sp.m := by
  unfold sphereStep
  rcases sphere_hit sp orig dir with _ | di
  · left; rfl
  · dsimp only
    split
    · right; rfl
    · left; rfl

/-- Over the whole sphere loop, the material out-parameter is either
the incoming value or the material of one of the scanned spheres. -/
lemma foldl_sphereStep_mat (orig dir : v3) :
    ∀ (sps : List Sphere) (acc : Int × HitState),
      (sps.foldl (sphereStep orig dir) acc).2.mat = acc.2.mat ∨
      ∃ sp ∈ sps, (sps.foldl (sphereStep orig dir) acc).2.mat = sp.m := by
  intro sps
  induction sps with
  | nil => intro acc; left; rfl
  | cons sp rest ih =>
    intro acc
    rw [List.foldl_cons]
    rcases ih (sphereStep orig dir acc sp) with h | ⟨sp2, hmem, h⟩
    · rcases sphereStep_mat orig dir acc sp with hs | hs
      · left; rw [h, hs]
      · right; exact ⟨sp, List.mem_cons_self sp rest, by rw [h, hs]⟩
    · right; exact ⟨sp2, List.mem_cons_of_mem sp hmem, h⟩

/-- When the checkerboard branch of `scene_hit` fires (the plane is
closer than every scanned sphere and the hit point lies in the bounded
region), the result of `scene_hit` is exactly the plane hit record:
the out-parameters `hit`, `N` are overwritten, and the material is the
sphere-loop material with only its `diffuse` field replaced by the
checker color. -/
lemma scene_hit_plane_eq (orig dir : v3) (sps : List Sphere) (st : HitState)
    (hy : ABS dir.y > EPS_Y)
    (hcond : planeDist orig dir > SURF_BIAS ∧
      ABS (planePt orig dir).x < S 10 ∧
      (planePt orig dir).z < S (-10) ∧ (planePt orig dir).z > S (-30) ∧
      planeDist orig dir < (sphereScan orig dir sps st).1) :
    scene_hit orig dir sps st =
      (decide (MIN (sphereScan orig dir sps st).1 (planeDist orig dir)
          < S 1000),
       ⟨planePt orig dir, V3 0 ONE 0,
        { (sphereScan orig dir sps st).2.mat with
            diffuse := checkerColor (planePt orig dir) }⟩) := by
  simp only [scene_hit]
  rw [if_pos hy, if_pos hcond]

/-- Base-2 rewriting of powers of 4. -/
lemma four_pow (j : Nat) : (4 : Nat) ^ j = 2 ^ j * 2 ^ j := by
  rw [show (4 : Nat) = 2 * 2 from rfl, mul_pow]

/-- Loop invariant of the digit-by-digit square root: if the bits found
so far are `s` (so `res = 4*s*one` with `one = 4^k`) and
`op = n - (s*2^(k+1))^2` with `n < ((s+1)*2^(k+1))^2`, the loop
computes the floor square root of `n`. -/
lemma isqrtLoopK_spec :
    ∀ (k s op n : Nat), n = op + (s * 2 ^ (k + 1)) ^ 2 →
      n < ((s + 1) * 2 ^ (k + 1)) ^ 2 →
      isqrtLoopK (k + 1) op (4 * s * 4 ^ k) *
          isqrtLoopK (k + 1) op (4 * s * 4 ^ k) ≤ n ∧
        n < (isqrtLoopK (k + 1) op (4 * s * 4 ^ k) + 1) *
          (isqrtLoopK (k + 1) op (4 * s * 4 ^ k) + 1) := by
  intro k
  induction k with
  | zero =>
    intro s op n hn hub
    have hres : 4 * s / 2 = 2 * s := by omega
    have hn' : n = op + 4 * (s * s) := by rw [hn]; ring
    have hub' : n < 4 * (s * s) + 8 * s + 4 := by
      calc n < ((s + 1) * 2 ^ (0 + 1)) ^ 2 := hub
        _ = 4 * (s * s) + 8 * s + 4 := by ring
    simp only [isqrtLoopK, pow_zero, mul_one, hres]
    split
    case isTrue hbr =>
      constructor
      · calc (2 * s + 1) * (2 * s + 1) = 4 * (s * s) + 4 * s + 1 := by ring
          _ ≤ n := by omega
      · calc n < 4 * (s * s) + 8 * s + 4 := hub'
          _ = (2 * s + 1 + 1) * (2 * s + 1 + 1) := by ring
    case isFalse hbr =>
      constructor
      · calc 2 * s * (2 * s) = 4 * (s * s) := by ring
          _ ≤ n := by omega
      · calc n < 4 * (s * s) + 4 * s + 1 := by omega
          _ = (2 * s + 1) * (2 * s + 1) := by ring
  | succ k ih =>
    intro s op n hn hub
    have hres : (4 * s * 4 ^ (k + 1)) / 2 = 2 * s * 4 ^ (k + 1) := by
      have h : 4 * s * 4 ^ (k + 1) = 2 * (2 * s * 4 ^ (k + 1)) := by ring
      rw [h]
      exact Nat.mul_div_cancel_left _ (by norm_num)
    simp only [isqrtLoopK, hres]
    split
    case isTrue hbr =>
      have hr2 : 2 * s * 4 ^ (k + 1) + 4 ^ (k + 1) = 4 * (2 * s + 1) * 4 ^ k := by
        rw [four_pow (k + 1), four_pow k]
        ring
      rw [hr2]
      apply ih (2 * s + 1) (op - (4 * s * 4 ^ (k + 1) + 4 ^ (k + 1))) n
      · have hbr' : 4 * s * 4 ^ (k + 1) + 4 ^ (k + 1) ≤ op := hbr
        have e1 : ((2 * s + 1) * 2 ^ (k + 1)) ^ 2
            = (s * 2 ^ (k + 1 + 1)) ^ 2 + (4 * s * 4 ^ (k + 1) + 4 ^ (k + 1)) := by
          rw [four_pow (k + 1)]
          ring
        omega
      · calc n < ((s + 1) * 2 ^ (k + 1 + 1)) ^ 2 := hub
          _ = ((2 * s + 1 + 1) * 2 ^ (k + 1)) ^ 2 := by ring
    case isFalse hbr =>
      have hr2 : 2 * s * 4 ^ (k + 1) = 4 * (2 * s) * 4 ^ k := by
        rw [four_pow (k + 1), four_pow k]
        ring
      rw [hr2]
      apply ih (2 * s) op n
      · rw [hn]; ring
      · have hbr' : op < 4 * s * 4 ^ (k + 1) + 4 ^ (k + 1) := by omega
        have e1 : ((2 * s + 1) * 2 ^ (k + 1)) ^ 2
            = (s * 2 ^ (k + 1 + 1)) ^ 2 + (4 * s * 4 ^ (k + 1) + 4 ^ (k + 1)) := by
          rw [four_pow (k + 1)]
          ring
        omega

/-- The first loop of `isqrt_u64` finds the largest power of 4 not
exceeding a positive operand (given a large enough starting power). -/
lemma isqrtInitK_spec :
    ∀ (m op : Nat), 0 < op → op < 4 ^ m →
      ∃ k, isqrtInitK m op = k + 1 ∧ 4 ^ k ≤ op ∧ op < 4 ^ (k + 1) := by
  intro m
  induction m with
  | zero => intro op h1 h2; norm_num at h2; omega
  | succ m ih =>
    intro op h1 h2
    simp only [isqrtInitK]
    split
    case isTrue h => exact ih op h1 h
    case isFalse h => exact ⟨m, rfl, by omega, h2⟩

/-- `isqrt_u64` computes the floor square root of any `uint64_t`
value. -/
lemma isqrt_u64_spec (n : Nat) (h1 : 0 < n) (h2 : n < 4 ^ 32) :
    isqrt_u64 n * isqrt_u64 n ≤ n ∧
      n < (isqrt_u64 n + 1) * (isqrt_u64 n + 1) := by
  obtain ⟨k, hk, hlo, hhi⟩ := isqrtInitK_spec 32 n h1 h2
  unfold isqrt_u64
  rw [hk]
  have hmain := isqrtLoopK_spec k 0 n n (by ring) ?hub
  case hub =>
    have h : ((0 + 1) * 2 ^ (k + 1)) ^ 2 = 4 ^ (k + 1) := by
      rw [four_pow (k + 1)]; ring
    rw [h]
    exact hhi
  simpa using hmain

/-- `SQRT` on a positive `int32` operand returns the floor square root
of the operand pre-shifted by 16 bits. -/
lemma SQRT_spec (x : Int) (h1 : 0 < x) (h2 : x < 2147483648) :
    0 ≤ SQRT x ∧ SQRT x * SQRT x ≤ x * 65536 ∧
      x * 65536 < (SQRT x + 1) * (SQRT x + 1) := by
  have hx0 : ¬ x ≤ 0 := by omega
  unfold SQRT toU32
  rw [if_neg hx0]
  have hm : x % 4294967296 = x := by omega
  rw [hm]
  have hn1 : 0 < x.toNat * 65536 := by
    have h : 0 < x.toNat := by omega
    positivity
  have h432 : (4 : Nat) ^ 32 = 18446744073709551616 := by norm_num
  have hn2 : x.toNat * 65536 < 4 ^ 32 := by
    have hxt : x.toNat < 2147483648 := by omega
    omega
  obtain ⟨hle, hlt⟩ := isqrt_u64_spec (x.toNat * 65536) hn1 hn2
  have hn2' : x.toNat * 65536 < 281474976710656 := by
    have hxt : x.toNat < 2147483648 := by omega
    omega
  have hrb : isqrt_u64 (x.toNat * 65536) < 16777216 := by
    by_contra hge
    push_neg at hge
    have := Nat.mul_le_mul hge hge
    omega
  have hw : wrap32 ((isqrt_u64 (x.toNat * 65536) : Nat) : Int)
      = (isqrt_u64 (x.toNat * 65536) : Int) := by
    unfold wrap32
    omega
  rw [hw]
  have hxx : x * 65536 = ((x.toNat * 65536 : Nat) : Int) := by push_cast; omega
  refine ⟨by positivity, ?_, ?_⟩
  · rw [hxx]; exact_mod_cast hle
  · rw [hxx]; exact_mod_cast hlt

/-- C9: for every Q16.16 scalar `x` (an `int32` value), `SQRT` returns
0 when `x ≤ 0`, and for positive `x` returns the non-negative floor
square root `r` of the pre-shifted value `x * 2^16`, i.e.
`r^2 ≤ x * 2^16 < (r+1)^2`. -/
theorem SQRT_floor_sqrt (x : Int) :
    (x ≤ 0 → SQRT x = 0) ∧
    (0 < x → x < 2147483648 →
      0 ≤ SQRT x ∧ SQRT x * SQRT x ≤ x * 65536 ∧
        x * 65536 < (SQRT x + 1) * (SQRT x + 1)) :=
  ⟨fun h => by simp [SQRT, h], fun h1 h2 => SQRT_spec x h1 h2⟩

/-- Witness for C9 at concrete inputs: `SQRT` of the representation of
9 and of a non-positive operand. -/
theorem SQRT_floor_sqrt_witness :
    SQRT (-5) = 0 ∧
    (0 ≤ SQRT 589824 ∧ SQRT 589824 * SQRT 589824 ≤ 589824 * 65536 ∧
      589824 * 65536 < (SQRT 589824 + 1) * (SQRT 589824 + 1)) :=
  ⟨(SQRT_floor_sqrt (-5)).1 (by decide),
   (SQRT_floor_sqrt 589824).2 (by decide) (by decide)⟩

/-- Q16.16 multiplication by a negated factor never exceeds the
negated product: the flooring shift and the `int32` wrap can only lose
toward minus infinity.  This is what makes the `refract_` recursion
terminate after at most one normal flip, for every `int32` input. -/
lemma MUL_neg_le (a b : Int) : MUL a (NEG b) ≤ - MUL a b := by
  unfold MUL NEG wrap32
  rw [mul_neg, Int.fdiv_eq_ediv _ (by norm_num), Int.fdiv_eq_ediv _ (by norm_num)]
  generalize a * b = p
  omega

/-- If a dot product is positive, the dot product against the negated
vector is negative (even with Q16.16 rounding and wrapping). -/
lemma v3_dot_neg_lt (I N : v3) (h : 0 < v3_dot I N) :
    v3_dot I (v3_neg N) < 0 := by
  have h1 := MUL_neg_le I.x N.x
  have h2 := MUL_neg_le I.y N.y
  have h3 := MUL_neg_le I.z N.z
  simp only [v3_dot, v3_neg, V3, ADD] at *
  omega

/-- The clamp at the top of `refract_` preserves strict negativity. -/
lemma clampDot_lt_zero (d : Int) (h : d < 0) : clampDot d < 0 := by
  simp only [clampDot, NEG, ONE]
  split_ifs <;> omega

/-- The clamp at the top of `refract_` reflects strict positivity. -/
lemma clampDot_pos_dot (d : Int) (h : 0 < clampDot d) : 0 < d := by
  simp only [clampDot, NEG, ONE] at h
  split_ifs at h <;> omega

/-- The clamp is bounded below by `-ONE`. -/
lemma clampDot_ge (d : Int) : NEG ONE ≤ clampDot d := by
  simp only [clampDot, NEG, ONE]
  split_ifs <;> omega

/-- The `refract_` recursion is insensitive to any fuel of at least 2:
the C self-call happens at most once, because a positive incidence dot
product flips to a strictly negative one. -/
lemma refractAux_stable (n : Nat) (I N : v3) (et ei : Int) :
    refractAux (n + 2) I N et ei = refract_ I N et ei := by
  unfold refract_
  by_cases hc : NEG (clampDot (v3_dot I N)) < 0
  · have hd : 0 < v3_dot I N := by
      apply clampDot_pos_dot
      simp only [NEG] at hc
      omega
    have hc2 : ¬ NEG (clampDot (v3_dot I (v3_neg N))) < 0 := by
      have h := clampDot_lt_zero _ (v3_dot_neg_lt I N hd)
      simp only [NEG]
      omega
    show refractAux (n + 1 + 1) I N et ei = refractAux 2 I N et ei
    simp only [refractAux]
    rw [if_pos hc, if_pos hc, if_neg hc2, if_neg hc2]
  · show refractAux (n + 1 + 1) I N et ei = refractAux 2 I N et ei
    simp only [refractAux]
    rw [if_neg hc, if_neg hc]

/-- C4: whenever the discriminant `k = 1 - eta^2*(1 - cosi^2)` computed
by the refraction routine is negative (total internal reflection), the
routine returns the pure red direction `(ONE, 0, 0)` — both when the
ray hits the front face (first conjunct) and when it hits the back
face and the routine flips the normal and swaps the indices (second
conjunct).  The routine is a total function: it returns a direction
for every input, never an error. -/
theorem refract_tir_red (I N : v3) (eta_t eta_i : Int) :
    (let cosi := NEG (clampDot (v3_dot I N))
     let eta := DIV eta_i eta_t
     let k := SUB ONE (MUL (MUL eta eta) (SUB ONE (MUL cosi cosi)))
     ¬ cosi < 0 → k < 0 → refract_ I N eta_t eta_i = V3 ONE 0 0) ∧
    (let cosiF := NEG (clampDot (v3_dot I (v3_neg N)))
     let etaF := DIV eta_t eta_i
     let kF := SUB ONE (MUL (MUL etaF etaF) (SUB ONE (MUL cosiF cosiF)))
     NEG (clampDot (v3_dot I N)) < 0 → kF < 0 →
       refract_ I N eta_t eta_i = V3 ONE 0 0) := by
  constructor
  · dsimp only
    intro hc hk
    unfold refract_
    simp only [refractAux]
    rw [if_neg hc, if_pos hk]
  · dsimp only
    intro hc hk
    have hd : 0 < v3_dot I N := by
      apply clampDot_pos_dot
      simp only [NEG] at hc
      omega
    have hc2 : ¬ NEG (clampDot (v3_dot I (v3_neg N))) < 0 := by
      have h := clampDot_lt_zero _ (v3_dot_neg_lt I N hd)
      simp only [NEG]
      omega
    unfold refract_
    simp only [refractAux]
    rw [if_pos hc, if_neg hc2, if_pos hk]

/-- Witness for C4: two concrete total-internal-reflection inputs (one
front-face, one back-face, at refractive-index ratio 1.5) on which
`refract_` returns pure red. -/
theorem refract_tir_red_witness :
    refract_ (V3 46341 (-46341) 0) (V3 0 65536 0) 65536 98304
      = V3 ONE 0 0 ∧
    refract_ (V3 46341 46341 0) (V3 0 65536 0) 98304 65536
      = V3 ONE 0 0 :=
  ⟨(refract_tir_red (V3 46341 (-46341) 0) (V3 0 65536 0) 65536 98304).1
      (by decide) (by decide),
   (refract_tir_red (V3 46341 46341 0) (V3 0 65536 0) 98304 65536).2
      (by decide) (by decide)⟩

/-- `DIV(e, e) = ONE` exactly, for every nonzero `e` (the C widened
division is exact here). -/
lemma DIV_self (e : Int) (he : e ≠ 0) : DIV e e = ONE := by
  unfold DIV wrap32 ONE
  rw [show e * 65536 = 65536 * e from by ring, Int.mul_tdiv_cancel _ he]
  decide

/-- Scaling by `ONE` is exact for `int32`-range operands. -/
lemma MUL_one_left (t : Int) (h1 : -2147483648 ≤ t) (h2 : t < 2147483648) :
    MUL ONE t = t := by
  unfold MUL ONE wrap32
  rw [Int.fdiv_eq_ediv _ (by norm_num)]
  omega

/-- `ABS a ≤ c` unfolded to a two-sided bound. -/
lemma abs_le_iff (a c : Int) : ABS a ≤ c ↔ -c ≤ a ∧ a ≤ c := by
  unfold ABS
  split <;> omega

/-- `v3_scale ONE` is the identity on vectors with components bounded
by `ONE` in magnitude. -/
lemma v3_scale_one (a : v3) (h1 : ABS a.x ≤ ONE) (h2 : ABS a.y ≤ ONE)
    (h3 : ABS a.z ≤ ONE) : v3_scale ONE a = a := by
  obtain ⟨hx1, hx2⟩ := (abs_le_iff a.x ONE).1 h1
  obtain ⟨hy1, hy2⟩ := (abs_le_iff a.y ONE).1 h2
  obtain ⟨hz1, hz2⟩ := (abs_le_iff a.z ONE).1 h3
  simp only [ONE] at *
  obtain ⟨ax, ay, az⟩ := a
  simp only [v3_scale, V3, v3.mk.injEq] at *
  refine ⟨?_, ?_, ?_⟩ <;> exact MUL_one_left _ (by omega) (by omega)

/-- For `0 ≤ c ≤ ONE` the Q16.16 square incurs no wrap: it is the
floored scaled square. -/
lemma MUL_sq (c : Int) (h1 : 0 ≤ c) (h2 : c ≤ 65536) :
    MUL c c = c * c / 65536 := by
  unfold MUL wrap32
  rw [Int.fdiv_eq_ediv _ (by norm_num)]
  have hcc : c * c ≤ 4294967296 := by nlinarith
  have hcc0 : 0 ≤ c * c := mul_nonneg h1 h1
  omega

/-- The rounding residue of squaring then square-rooting in Q16.16:
for `0 ≤ c ≤ ONE`, `c - SQRT(MUL(c,c))` lies in `[0, 256]` — at most
`2^-8` in world units. -/
lemma sqrt_residue (c : Int) (h1 : 0 ≤ c) (h2 : c ≤ 65536) :
    0 ≤ c - SQRT (MUL c c) ∧ c - SQRT (MUL c c) ≤ 256 := by
  rw [MUL_sq c h1 h2]
  have hcc0 : 0 ≤ c * c := mul_nonneg h1 h1
  have hcc : c * c ≤ 4294967296 := by nlinarith
  have hm0 : 0 ≤ c * c / 65536 := Int.ediv_nonneg hcc0 (by norm_num)
  by_cases hmz : c * c / 65536 ≤ 0
  · have hm00 : c * c / 65536 = 0 := le_antisymm hmz hm0
    have hccs : c * c < 65536 := by omega
    have hc255 : c ≤ 255 := by nlinarith
    have hsq : SQRT (c * c / 65536) = 0 := by
      rw [hm00]
      decide
    rw [hsq]
    omega
  · push_neg at hmz
    have hmlt : c * c / 65536 < 2147483648 := by omega
    obtain ⟨hr0, hrle, hrlt⟩ := SQRT_spec (c * c / 65536) hmz hmlt
    have hm65 : c * c / 65536 * 65536 ≤ c * c := by omega
    have hrc : SQRT (c * c / 65536) ≤ c := by nlinarith
    refine ⟨by omega, ?_⟩
    by_cases hcs : c ≤ 256
    · omega
    · push_neg at hcs
      have hfloor : c * c - 65535 ≤ c * c / 65536 * 65536 := by omega
      have hkey : (c - 256) * (c - 256) ≤ c * c / 65536 * 65536 := by nlinarith
      nlinarith

/-- The non-flipping path of `refract_` with equal refractive indices:
`eta = ONE` exactly, the discriminant is the Q16.16 square of `cosi`
(hence non-negative — no total internal reflection), and the result is
`I` plus the sqrt rounding residue times the normal. -/
lemma refract_front (fuel : Nat) (I N : v3) (e : Int) (he : e ≠ 0)
    (hc : ¬ NEG (clampDot (v3_dot I N)) < 0)
    (hIx : ABS I.x ≤ ONE) (hIy : ABS I.y ≤ ONE) (hIz : ABS I.z ≤ ONE) :
    refractAux (fuel + 1) I N e e
      = v3_add I
          (v3_scale
            (SUB (NEG (clampDot (v3_dot I N)))
              (SQRT (MUL (NEG (clampDot (v3_dot I N)))
                (NEG (clampDot (v3_dot I N)))))) N) := by
  have hge := clampDot_ge (v3_dot I N)
  simp only [NEG, ONE] at hc hge
  have h0 : 0 ≤ NEG (clampDot (v3_dot I N)) := by simp only [NEG]; omega
  have h65 : NEG (clampDot (v3_dot I N)) ≤ 65536 := by simp only [NEG]; omega
  simp only [refractAux]
  rw [if_neg (by simp only [NEG]; omega : ¬ NEG (clampDot (v3_dot I N)) < 0)]
  rw [DIV_self e he]
  rw [show MUL ONE ONE = ONE from by decide]
  have hsq : 0 ≤ MUL (NEG (clampDot (v3_dot I N))) (NEG (clampDot (v3_dot I N)))
      ∧ MUL (NEG (clampDot (v3_dot I N))) (NEG (clampDot (v3_dot I N))) ≤ 65536 := by
    rw [MUL_sq _ h0 h65]
    have hcc0 : 0 ≤ NEG (clampDot (v3_dot I N)) * NEG (clampDot (v3_dot I N)) :=
      mul_nonneg h0 h0
    have hcc : NEG (clampDot (v3_dot I N)) * NEG (clampDot (v3_dot I N))
        ≤ 4294967296 := by nlinarith
    constructor
    · exact Int.ediv_nonneg hcc0 (by norm_num)
    · omega
  rw [MUL_one_left (SUB ONE (MUL (NEG (clampDot (v3_dot I N)))
      (NEG (clampDot (v3_dot I N)))))
    (by unfold SUB ONE; omega) (by unfold SUB ONE; omega)]
  rw [show ∀ m : Int, SUB ONE (SUB ONE m) = m from fun m => by
    unfold SUB; ring]
  rw [if_neg (by omega : ¬ MUL (NEG (clampDot (v3_dot I N)))
      (NEG (clampDot (v3_dot I N))) < 0)]
  rw [MUL_one_left (NEG (clampDot (v3_dot I N))) (by omega) (by omega)]
  rw [v3_scale_one I hIx hIy hIz]

/-- C6 (amended): with equal refractive indices, the fixed-point
refraction routine returns the incident direction `I` plus a rounding
residue `t` (in `[0, 256]`, i.e. at most `2^-8` world units) times the
outward-oriented normal — exactly `I` only when the residue vanishes. -/
theorem refract_equal_eta (I N : v3) (e : Int) (he : e ≠ 0)
    (hIx : ABS I.x ≤ ONE) (hIy : ABS I.y ≤ ONE) (hIz : ABS I.z ≤ ONE) :
    ∃ t : Int, 0 ≤ t ∧ t ≤ 256 ∧
      (refract_ I N e e = v3_add I (v3_scale t N) ∨
        refract_ I N e e = v3_add I (v3_scale t (v3_neg N))) := by
  by_cases hc : NEG (clampDot (v3_dot I N)) < 0
  · have hd : 0 < v3_dot I N := by
      apply clampDot_pos_dot
      simp only [NEG] at hc
      omega
    have hc2 : ¬ NEG (clampDot (v3_dot I (v3_neg N))) < 0 := by
      have h := clampDot_lt_zero _ (v3_dot_neg_lt I N hd)
      simp only [NEG]
      omega
    have hge := clampDot_ge (v3_dot I (v3_neg N))
    have h0 : 0 ≤ NEG (clampDot (v3_dot I (v3_neg N))) := by
      simp only [NEG] at hc2 ⊢
      omega
    have h65 : NEG (clampDot (v3_dot I (v3_neg N))) ≤ 65536 := by
      simp only [NEG, ONE] at hge ⊢
      omega
    obtain ⟨ht1, ht2⟩ := sqrt_residue (NEG (clampDot (v3_dot I (v3_neg N)))) h0 h65
    refine ⟨SUB (NEG (clampDot (v3_dot I (v3_neg N))))
        (SQRT (MUL (NEG (clampDot (v3_dot I (v3_neg N))))
          (NEG (clampDot (v3_dot I (v3_neg N)))))), ?_, ?_, Or.inr ?_⟩
    · unfold SUB
      omega
    · unfold SUB
      omega
    · show refractAux (1 + 1) I N e e = _
      rw [refractAux]
      dsimp only
      rw [if_pos hc]
      exact refract_front 0 I (v3_neg N) e he hc2 hIx hIy hIz
  · have h0' : 0 ≤ NEG (clampDot (v3_dot I N)) := by
      simp only [NEG] at hc ⊢
      omega
    have h65' : NEG (clampDot (v3_dot I N)) ≤ 65536 := by
      have hge := clampDot_ge (v3_dot I N)
      simp only [NEG, ONE] at hge ⊢
      omega
    obtain ⟨ht1, ht2⟩ := sqrt_residue (NEG (clampDot (v3_dot I N))) h0' h65'
    refine ⟨SUB (NEG (clampDot (v3_dot I N)))
        (SQRT (MUL (NEG (clampDot (v3_dot I N)))
          (NEG (clampDot (v3_dot I N))))), ?_, ?_, Or.inl ?_⟩
    · unfold SUB
      omega
    · unfold SUB
      omega
    · show refractAux (1 + 1) I N e e = _
      exact refract_front 1 I N e he hc hIx hIy hIz

/-- Witness for C6's amended theorem at a concrete unit incident
direction and unit normal, equal indices `1.0`. -/
theorem refract_equal_eta_witness :
    ∃ t : Int, 0 ≤ t ∧ t ≤ 256 ∧
      (refract_ (V3 46341 (-46341) 0) (V3 0 65536 0) 65536 65536
          = v3_add (V3 46341 (-46341) 0) (v3_scale t (V3 0 65536 0)) ∨
        refract_ (V3 46341 (-46341) 0) (V3 0 65536 0) 65536 65536
          = v3_add (V3 46341 (-46341) 0) (v3_scale t (v3_neg (V3 0 65536 0)))) :=
  refract_equal_eta (V3 46341 (-46341) 0) (V3 0 65536 0) 65536 (by decide)
    (by decide) (by decide) (by decide)

/-- Counterexample for C6 as stated: a unit incident direction (its
Q16.16 self-dot is exactly `ONE`) and a unit normal for which the
refraction routine with equal indices does not return the incident
direction unchanged — the sqrt rounding residue shifts the y component
by one least-significant bit. -/
theorem refract_equal_eta_counterexample :
    v3_dot (v3_norm (V3 ONE (NEG ONE) 0)) (v3_norm (V3 ONE (NEG ONE) 0))
      = ONE ∧
    v3_norm (V3 ONE (NEG ONE) 0) = V3 46341 (-46341) 0 ∧
    refract_ (v3_norm (V3 ONE (NEG ONE) 0)) (V3 0 ONE 0) ONE ONE
      ≠ v3_norm (V3 ONE (NEG ONE) 0) := by decide

/-- `MUL(SF(0.5), w)` is exact halving (flooring) for in-range
operands. -/
lemma mul_half_eq (w : Int) (h1 : -1966081 ≤ w) (h2 : w ≤ 655360) :
    MUL 32768 w = w / 2 := by
  unfold MUL wrap32
  rw [Int.fdiv_eq_ediv _ (by norm_num)]
  omega

/-- The checker column index: `TO_INT(ADD(MUL(SF(0.5), w), S(1000)))`
is `floor(w/2) + 1000` in world units for in-range `w`. -/
lemma checker_cx_eq (w : Int) (h1 : -655360 ≤ w) (h2 : w ≤ 655360) :
    TO_INT (ADD (MUL 32768 w) (S 1000)) = w / 131072 + 1000 := by
  rw [mul_half_eq w (by omega) h2]
  have hS : S 1000 = 65536000 := by decide
  unfold TO_INT ADD
  rw [hS, Int.fdiv_eq_ediv _ (by norm_num)]
  omega

/-- The checker row index: `TO_INT(MUL(SF(0.5), w))` is `floor(w/2)`
in world units for in-range `w`. -/
lemma checker_cz_eq (w : Int) (h1 : -1966081 ≤ w) (h2 : w ≤ 0) :
    TO_INT (MUL 32768 w) = w / 131072 := by
  rw [mul_half_eq w h1 (by omega)]
  unfold TO_INT
  rw [Int.fdiv_eq_ediv _ (by norm_num)]
  omega

/-- `ABS a < c` unfolded to a two-sided bound (for positive `c`). -/
lemma abs_lt_iff (a c : Int) (hc : 0 < c) : ABS a < c ↔ -c < a ∧ a < c := by
  unfold ABS
  split <;> omega

/-- On the accepted checkerboard region, the color computed by
`checkerColor` is selected by the parity of
`(floor(x/2) + 1000) + floor(z/2)` in world units. -/
lemma checkerColor_eq_cell (pt : v3)
    (hx : ABS pt.x < S 10) (hz1 : pt.z < S (-10)) (hz2 : pt.z > S (-30)) :
    checkerColor pt =
      (if checkerCellParity pt = 1 then V3 19661 19661 19661
       else V3 19661 13107 6554) := by
  have hS10 : S 10 = 655360 := by decide
  have hSm10 : S (-10) = -655360 := by decide
  have hSm30 : S (-30) = -1966080 := by decide
  rw [hS10] at hx
  rw [hSm10] at hz1
  rw [hSm30] at hz2
  obtain ⟨hx1, hx2⟩ := (abs_lt_iff pt.x 655360 (by norm_num)).1 hx
  unfold checkerColor checkerCellParity
  rw [checker_cx_eq pt.x (by omega) (by omega),
    checker_cz_eq pt.z (by omega) (by omega),
    Int.fdiv_eq_ediv pt.x (by norm_num), Int.fdiv_eq_ediv pt.z (by norm_num)]

/-- C10: whenever the checkerboard plane is the accepted nearest hit,
`scene_hit` overwrites only the hit point (the plane point), the
normal (the fixed up vector) and the material's diffuse color (the
checker color); the returned material's refractive index, albedo and
specular exponent are exactly those left by the sphere loop, which in
turn are the caller's incoming material or the material of one of the
scanned (farther) spheres. -/
theorem scene_hit_plane_frame (orig dir : v3) (sps : List Sphere)
    (st : HitState)
    (hy : ABS dir.y > EPS_Y)
    (hcond : planeDist orig dir > SURF_BIAS ∧
      ABS (planePt orig dir).x < S 10 ∧
      (planePt orig dir).z < S (-10) ∧ (planePt orig dir).z > S (-30) ∧
      planeDist orig dir < (sphereScan orig dir sps st).1) :
    (scene_hit orig dir sps st).2.hit = planePt orig dir ∧
    (scene_hit orig dir sps st).2.N = V3 0 ONE 0 ∧
    (scene_hit orig dir sps st).2.mat.diffuse
      = checkerColor (planePt orig dir) ∧
    (scene_hit orig dir sps st).2.mat.refr
      = (sphereScan orig dir sps st).2.mat.refr ∧
    (scene_hit orig dir sps st).2.mat.albedo
      = (sphereScan orig dir sps st).2.mat.albedo ∧
    (scene_hit orig dir sps st).2.mat.spec
      = (sphereScan orig dir sps st).2.mat.spec ∧
    ((sphereScan orig dir sps st).2.mat = st.mat ∨
      ∃ sp ∈ sps, (sphereScan orig dir sps st).2.mat = sp.m) := by
  rw [scene_hit_plane_eq orig dir sps st hy hcond]
  exact ⟨rfl, rfl, rfl, rfl, rfl, rfl, foldl_sphereStep_mat orig dir sps _⟩

/-- C5 (amended): for every plane hit accepted by `scene_hit`, the
returned diffuse color is one of the two fixed checker colors
`(.3,.3,.3)` and `(.3,.2,.1)`, selected by the parity of
`(floor(x/2) + 1000) + floor(z/2)` at the hit point (both coordinates
halved — 2-unit cells; the x index carries the `+1000` offset);
consequently floor cells 2 world units apart alternate between the
two colors. -/
theorem scene_hit_checker_colors (orig dir : v3) (sps : List Sphere)
    (st : HitState)
    (hy : ABS dir.y > EPS_Y)
    (hcond : planeDist orig dir > SURF_BIAS ∧
      ABS (planePt orig dir).x < S 10 ∧
      (planePt orig dir).z < S (-10) ∧ (planePt orig dir).z > S (-30) ∧
      planeDist orig dir < (sphereScan orig dir sps st).1) :
    ((scene_hit orig dir sps st).2.mat.diffuse = V3 19661 19661 19661 ∨
      (scene_hit orig dir sps st).2.mat.diffuse = V3 19661 13107 6554) ∧
    (scene_hit orig dir sps st).2.mat.diffuse =
      (if checkerCellParity (planePt orig dir) = 1 then V3 19661 19661 19661
       else V3 19661 13107 6554) := by
  rw [scene_hit_plane_eq orig dir sps st hy hcond]
  dsimp only
  rw [checkerColor_eq_cell (planePt orig dir) hcond.2.1 hcond.2.2.1
    hcond.2.2.2.1]
  constructor
  · split
    · left; rfl
    · right; rfl
  · rfl

/-- Witness for C5's amended theorem at a concrete accepted plane
hit. -/
theorem scene_hit_checker_colors_witness :
    ((scene_hit (V3 0 0 (-720896)) (V3 0 (-65536) 0) []
        ⟨V3 0 0 0, V3 0 0 0, defaultMaterial⟩).2.mat.diffuse
        = V3 19661 19661 19661 ∨
      (scene_hit (V3 0 0 (-720896)) (V3 0 (-65536) 0) []
        ⟨V3 0 0 0, V3 0 0 0, defaultMaterial⟩).2.mat.diffuse
        = V3 19661 13107 6554) :=
  (scene_hit_checker_colors (V3 0 0 (-720896)) (V3 0 (-65536) 0) []
    ⟨V3 0 0 0, V3 0 0 0, defaultMaterial⟩ (by decide) (by decide)).1

/-- Counterexample for C5 as stated: two accepted plane hits whose
claimed selector `floor(x/2) + floor(z)` has the same parity receive
the two different checker colors, so the color is not selected by that
parity (the code halves the z coordinate as well). -/
theorem scene_hit_checker_counterexample :
    (scene_hit (V3 0 0 (-720896)) (V3 0 (-65536) 0) []
        ⟨V3 0 0 0, V3 0 0 0, defaultMaterial⟩).1 = true ∧
    (scene_hit (V3 0 0 (-851968)) (V3 0 (-65536) 0) []
        ⟨V3 0 0 0, V3 0 0 0, defaultMaterial⟩).1 = true ∧
    (scene_hit (V3 0 0 (-720896)) (V3 0 (-65536) 0) []
        ⟨V3 0 0 0, V3 0 0 0, defaultMaterial⟩).2.mat.diffuse
      = V3 19661 13107 6554 ∧
    (scene_hit (V3 0 0 (-851968)) (V3 0 (-65536) 0) []
        ⟨V3 0 0 0, V3 0 0 0, defaultMaterial⟩).2.mat.diffuse
      = V3 19661 19661 19661 ∧
    checkerClaimParity (planePt (V3 0 0 (-720896)) (V3 0 (-65536) 0))
      = checkerClaimParity (planePt (V3 0 0 (-851968)) (V3 0 (-65536) 0)) ∧
    (V3 19661 13107 6554 : v3) ≠ V3 19661 19661 19661 := by decide

/-- For every color channel, the fixed-point output stage equals the
round-to-nearest quantization of the clamped channel, and never
exceeds 255 (so the final saturation test and the `uint32`/`uint8`
conversions are identities). -/
lemma renderChannel_eq (c : Int) :
    (if toU32 ((clampChannel c * 255 + HALF).fdiv 65536) > 255 then (255 : Nat)
      else toU32 ((clampChannel c * 255 + HALF).fdiv 65536))
      = quant255 (clampChannel c) ∧
    quant255 (clampChannel c) ≤ 255 := by
  have hb : 0 ≤ clampChannel c ∧ clampChannel c ≤ 65536 := by
    unfold clampChannel ONE
    split_ifs <;> omega
  obtain ⟨h1, h2⟩ := hb
  unfold toU32 quant255 HALF
  rw [Int.fdiv_eq_ediv _ (by norm_num)]
  have hw1 : 0 ≤ (clampChannel c * 255 + 32768) / 65536 := by omega
  have hw2 : (clampChannel c * 255 + 32768) / 65536 ≤ 255 := by omega
  have hmod : (clampChannel c * 255 + 32768) / 65536 % 4294967296
      = (clampChannel c * 255 + 32768) / 65536 := by omega
  rw [hmod]
  constructor
  · split <;> omega
  · omega

/-- C7 (amended): the fixed-point backend's `render` clamps each
channel of the `cast_ray` color to `[0, ONE]` and then quantizes it to
`0..255` by multiplying by 255, adding the half-unit bias and shifting
(round-to-nearest); every returned channel is at most 255.  (The
float backend's `render` returns the raw `cast_ray` components with no
clamping — see the counterexample.) -/
theorem renderFixed_clamp_quantize (x y : Int) :
    (let C := castRay (V3 0 0 0)
      (v3_norm (V3 (SUB (ADD (S x) 32768) (S 40))
        (SUB (S 25) (ADD (S y) 32768)) DIRZ_SCALE)) sceneSpheres
      sceneLights 0
     renderFixed x y
      = (quant255 (clampChannel C.x), quant255 (clampChannel C.y),
          quant255 (clampChannel C.z)) ∧
    (renderFixed x y).1 ≤ 255 ∧ (renderFixed x y).2.1 ≤ 255 ∧
      (renderFixed x y).2.2 ≤ 255) := by
  dsimp only
  unfold renderFixed
  dsimp only
  rw [(renderChannel_eq _).1, (renderChannel_eq _).1, (renderChannel_eq _).1]
  exact ⟨rfl, (renderChannel_eq _).2, (renderChannel_eq _).2,
    (renderChannel_eq _).2⟩

/-- Counterexample for C7 as stated about the float backend: the float
`render` output stage returns the computed color unchanged; at a color
with a channel equal to 2.0 it differs from the channel-wise clamp to
`[0, 1]`, so `render` does not clamp before returning there. -/
theorem render_float_no_clamp :
    renderFloatPost (V3 131072 0 0) = V3 131072 0 0 ∧
    V3 (clampChannel 131072) (clampChannel 0) (clampChannel 0)
      = V3 65536 0 0 ∧
    renderFloatPost (V3 131072 0 0)
      ≠ V3 (clampChannel 131072) (clampChannel 0) (clampChannel 0) := by
  decide

/-- Witness for C10 at a concrete plane hit: straight-down ray over the
checkerboard region, empty sphere list, default incoming material. -/
theorem scene_hit_plane_frame_witness :
    (scene_hit (V3 0 0 (-720896)) (V3 0 (-65536) 0) []
        ⟨V3 0 0 0, V3 0 0 0, defaultMaterial⟩).2.mat.refr
      = (sphereScan (V3 0 0 (-720896)) (V3 0 (-65536) 0) []
          ⟨V3 0 0 0, V3 0 0 0, defaultMaterial⟩).2.mat.refr ∧
    (scene_hit (V3 0 0 (-720896)) (V3 0 (-65536) 0) []
        ⟨V3 0 0 0, V3 0 0 0, defaultMaterial⟩).2.mat.albedo
      = (sphereScan (V3 0 0 (-720896)) (V3 0 (-65536) 0) []
          ⟨V3 0 0 0, V3 0 0 0, defaultMaterial⟩).2.mat.albedo :=
  ⟨(scene_hit_plane_frame (V3 0 0 (-720896)) (V3 0 (-65536) 0) []
      ⟨V3 0 0 0, V3 0 0 0, defaultMaterial⟩ (by decide) (by decide)).2.2.2.1,
   (scene_hit_plane_frame (V3 0 0 (-720896)) (V3 0 (-65536) 0) []
      ⟨V3 0 0 0, V3 0 0 0, defaultMaterial⟩ (by decide)
      (by decide)).2.2.2.2.1⟩
